import Mathlib

/-
Verification of the Cognia memory-mesh Python SDK
(src/sdk/python/memory_mesh/__init__.py).

The SDK is a thin HTTP client.  The embedding below models:
  * JSON values (`Json`), with integers for JSON numbers (the repository
    only ever moves opaque JSON values; no claim involves non-integer
    numbers or floats);
  * Python's `json.dumps` with its default separators `", "` and `": "`
    (`dumps`), escaping `"` and `\` in strings; other characters are
    carried verbatim, which is round-trip-equivalent to CPython's
    additional `\uXXXX` escaping of non-ASCII characters;
  * a decoder (`loads`) for the canonical form emitted by `dumps`,
    modelling `json.loads` / `response.json()` on such bodies;
  * the `requests` transport as an explicit function argument
    `server : HttpRequest → HttpResponse`; `raise_for_status` raises
    exactly for status codes 400–599, and the raised error carries the
    status code and the response body;
  * `MemoryMeshClient` itself, with `add_memories` and `query_memories`
    returning the issued request, the outcome, and the (unchanged)
    client state after the call.
-/

/-- A JSON value.  Objects are association lists in insertion order,
mirroring Python dicts; duplicate keys can only arise from parsing, and
`dictGet` resolves them like `dict` construction does (last wins). -/
inductive Json where
  | null : Json
  | bool : Bool → Json
  | num : Int → Json
  | str : String → Json
  | arr : List Json → Json
  | obj : List (String × Json) → Json

/-- The decimal digit character for `d < 10`. -/
def digitChar (d : Nat) : Char := Char.ofNat (48 + d)

/-- Decimal digits of `n` (most significant first), with fuel for
structural termination; `natChars` supplies enough fuel. -/
def natCharsAux : Nat → Nat → List Char
  | 0, _ => []
  | f+1, n => if n < 10 then [digitChar n] else natCharsAux f (n / 10) ++ [digitChar (n % 10)]

/-- Decimal digits of `n`, most significant first. -/
def natChars (n : Nat) : List Char := natCharsAux (n + 1) n

/-- Python `str(int)`: optional sign followed by decimal digits. -/
def intChars (i : Int) : List Char :=
  if i < 0 then '-' :: natChars i.natAbs else natChars i.natAbs

/-- JSON string escaping of one character (`"` and `\` get a backslash). -/
def escChar (c : Char) : List Char :=
  if c = '"' ∨ c = '\\' then ['\\', c] else [c]

/-- JSON string escaping, character by character. -/
def escChars : List Char → List Char
  | [] => []
  | c :: r => escChar c ++ escChars r

mutual
/-- Render a JSON value the way `json.dumps` does with its default
separators: `", "` between items and `": "` after keys. -/
def emitVal : Json → List Char
  | Json.null => ['n','u','l','l']
  | Json.bool true => ['t','r','u','e']
  | Json.bool false => ['f','a','l','s','e']
  | Json.num i => intChars i
  | Json.str s => '"' :: (escChars s.data ++ ['"'])
  | Json.arr [] => ['[', ']']
  | Json.arr (x :: xs) => '[' :: (emitVal x ++ emitElems xs ++ [']'])
  | Json.obj [] => ['\x7b', '\x7d']
  | Json.obj (kv :: kvs) => '\x7b' :: (emitMember kv ++ emitMembers kvs ++ ['\x7d'])
/-- Render the second and later array elements, each preceded by `", "`. -/
def emitElems : List Json → List Char
  | [] => []
  | x :: xs => ',' :: ' ' :: (emitVal x ++ emitElems xs)
/-- Render one object member as `"key": value`. -/
def emitMember : String × Json → List Char
  | (k, v) => '"' :: (escChars k.data ++ '"' :: ':' :: ' ' :: emitVal v)
/-- Render the second and later object members, each preceded by `", "`. -/
def emitMembers : List (String × Json) → List Char
  | [] => []
  | kv :: kvs => ',' :: ' ' :: (emitMember kv ++ emitMembers kvs)
end

/-- Model of `json.dumps` (default separators). -/
def dumps (j : Json) : String := String.mk (emitVal j)

/-- Consume a run of decimal digits, folding them onto `acc`. -/
def decDigits (acc : Nat) : List Char → Nat × List Char
  | c :: r => if c.isDigit then decDigits (acc * 10 + (c.toNat - 48)) r else (acc, c :: r)
  | [] => (acc, [])

/-- Parse a natural number: at least one digit, then a greedy digit run. -/
def decNat : List Char → Option (Nat × List Char)
  | c :: r => if c.isDigit then some (decDigits (c.toNat - 48) r) else none
  | [] => none

/-- Parse the body of a JSON string after the opening quote; a backslash
escapes the next character. -/
def decStrBody : List Char → Option (List Char × List Char)
  | [] => none
  | c :: r =>
    if c = '"' then some ([], r)
    else if c = '\\' then
      match r with
      | c2 :: r2 =>
        match decStrBody r2 with
        | some (s, r3) => some (c2 :: s, r3)
        | none => none
      | [] => none
    else
      match decStrBody r with
      | some (s, r2) => some (c :: s, r2)
      | none => none

/-- Consume an expected literal character sequence. -/
def expectLit : List Char → List Char → Option (List Char)
  | [], r => some r
  | p :: ps, c :: r => if c = p then expectLit ps r else none
  | _ :: _, [] => none

mutual
/-- Parse one JSON value in the canonical form produced by `emitVal`
(fuel-structural; callers supply fuel beyond the input length). -/
def decVal : Nat → List Char → Option (Json × List Char)
  | 0, _ => none
  | _+1, [] => none
  | f+1, c :: r =>
    if c = 'n' then
      match expectLit (['u','l','l']) r with
      | some r2 => some (Json.null, r2)
      | none => none
    else if c = 't' then
      match expectLit (['r','u','e']) r with
      | some r2 => some (Json.bool true, r2)
      | none => none
    else if c = 'f' then
      match expectLit (['a','l','s','e']) r with
      | some r2 => some (Json.bool false, r2)
      | none => none
    else if c = '"' then
      match decStrBody r with
      | some (s, r2) => some (Json.str (String.mk s), r2)
      | none => none
    else if c = '[' then
      if r.head? = some ']' then some (Json.arr [], r.tail)
      else
        match decVal f r with
        | some (v, r2) =>
          match decElems f r2 with
          | some (vs, r3) => some (Json.arr (v :: vs), r3)
          | none => none
        | none => none
    else if c = '\x7b' then
      if r.head? = some '\x7d' then some (Json.obj [], r.tail)
      else
        match decMember f r with
        | some (kv, r2) =>
          match decMembers f r2 with
          | some (kvs, r3) => some (Json.obj (kv :: kvs), r3)
          | none => none
        | none => none
    else if c = '-' then
      match decNat r with
      | some (n, r2) => some (Json.num (-(n : Int)), r2)
      | none => none
    else if c.isDigit then
      match decNat (c :: r) with
      | some (n, r2) => some (Json.num ((n : Int)), r2)
      | none => none
    else none
/-- Parse the rest of an array: `]` ends it, `", "` precedes each
further element. -/
def decElems : Nat → List Char → Option (List Json × List Char)
  | 0, _ => none
  | _+1, [] => none
  | f+1, c :: r =>
    if c = ']' then some ([], r)
    else if c = ',' then
      if r.head? = some ' ' then
        match decVal f r.tail with
        | some (v, r3) =>
          match decElems f r3 with
          | some (vs, r4) => some (v :: vs, r4)
          | none => none
        | none => none
      else none
    else none
/-- Parse one object member: quoted key, `": "`, then a value. -/
def decMember : Nat → List Char → Option ((String × Json) × List Char)
  | 0, _ => none
  | _+1, [] => none
  | f+1, c :: r =>
    if c = '"' then
      match decStrBody r with
      | some (k, r2) =>
        if r2.head? = some ':' then
          if r2.tail.head? = some ' ' then
            match decVal f r2.tail.tail with
            | some (v, r4) => some ((String.mk k, v), r4)
            | none => none
          else none
        else none
      | none => none
    else none
/-- Parse the rest of an object: closing brace ends it, `", "` precedes
each further member. -/
def decMembers : Nat → List Char → Option (List (String × Json) × List Char)
  | 0, _ => none
  | _+1, [] => none
  | f+1, c :: r =>
    if c = '\x7d' then some ([], r)
    else if c = ',' then
      if r.head? = some ' ' then
        match decMember f r.tail with
        | some (kv, r3) =>
          match decMembers f r3 with
          | some (kvs, r4) => some (kv :: kvs, r4)
          | none => none
        | none => none
      else none
    else none
end

/-- Model of `json.loads` / `response.json()`: parse the whole string as
one JSON value, failing if anything is left over. -/
def loads (s : String) : Option Json :=
  match decVal (s.length + 1) s.data with
  | some (j, rem) => if rem = [] then some j else none
  | none => none

/-- An HTTP request as assembled by the client: method, URL, query
parameters (in insertion order, before URL-encoding), headers, and the
`json=` body passed to `requests.post` if any. -/
structure HttpRequest where
  method : String
  url : String
  params : List (String × String)
  headers : List (String × String)
  body : Option Json

/-- An HTTP response: status code and raw body text. -/
structure HttpResponse where
  status : Nat
  body : String

/-- Failures a call can surface: `requests.HTTPError` from
`raise_for_status` (carrying status and body), a body that is not valid
JSON, or `.get` applied to a non-dict (`AttributeError`). -/
inductive ClientError where
  | httpError : Nat → String → ClientError
  | jsonDecodeError : ClientError
  | attributeError : ClientError

/-- The client's state: the two attributes set by `__init__`. -/
structure MemoryMeshClient where
  api_key : String
  base_url : String

/-- The fixed fallback service address in `__init__`. -/
def defaultBaseUrl : String := "https://api.example.com"

/-- `__init__`: store the key, and `base_url or "https://api.example.com"`;
`or` takes the right operand when `base_url` is `None` or falsy (`""`). -/
def MemoryMeshClient.init (api_key : String) (base_url : Option String) : MemoryMeshClient :=
  { api_key := api_key
    base_url :=
      match base_url with
      | some s => if s = "" then defaultBaseUrl else s
      | none => defaultBaseUrl }

/-- The value bound to key `k` in the dict built from `kvs` (later
bindings win, as in Python dict construction), if any. -/
def lookupLast (kvs : List (String × Json)) (k : String) : Option Json :=
  ((kvs.filter (fun kv => kv.1 == k)).getLast?).map (fun kv => kv.2)

/-- Python `dict.get(k, dflt)` over the dict built from `kvs`. -/
def dictGet (kvs : List (String × Json)) (k : String) (dflt : Json) : Json :=
  match lookupLast kvs k with
  | some v => v
  | none => dflt

/-- Everything observable about one method call: the client state after
the call, the single request issued, and the returned value or error. -/
structure CallResult where
  clientAfter : MemoryMeshClient
  request : HttpRequest
  result : Except ClientError Json

/-- `add_memories`: POST `{"memories": memories}` to
`<base_url>/api/v1/mesh/memories` with JSON and bearer headers; raise on
4xx/5xx; otherwise return `response.json().get("stored_ids", [])`. -/
def MemoryMeshClient.add_memories (c : MemoryMeshClient) (memories : List Json)
    (server : HttpRequest → HttpResponse) : CallResult :=
  let req : HttpRequest :=
    { method := "POST"
      url := c.base_url ++ "/api/v1/mesh/memories"
      params := []
      headers := [("Content-Type", "application/json"),
                  ("Authorization", "Bearer " ++ c.api_key)]
      body := some (Json.obj [("memories", Json.arr memories)]) }
  let response := server req
  let result : Except ClientError Json :=
    if 400 ≤ response.status ∧ response.status < 600 then
      Except.error (ClientError.httpError response.status response.body)
    else
      match loads response.body with
      | none => Except.error ClientError.jsonDecodeError
      | some (Json.obj kvs) => Except.ok (dictGet kvs ("stored_ids") (Json.arr []))
      | some _ => Except.error ClientError.attributeError
  { clientAfter := c, request := req, result := result }

/-- `query_memories`: GET `<base_url>/api/v1/mesh/memories/query` with
params `q`, `limit`, and `filters=json.dumps(filters)` only when
`filters` is truthy; bearer header; raise on 4xx/5xx; otherwise return
`response.json().get("hits", [])`. -/
def MemoryMeshClient.query_memories (c : MemoryMeshClient) (query : String)
    (limit : Int) (filters : Option (List (String × Json)))
    (server : HttpRequest → HttpResponse) : CallResult :=
  let params : List (String × String) :=
    match filters with
    | none => [("q", query), ("limit", toString limit)]
    | some [] => [("q", query), ("limit", toString limit)]
    | some fs => [("q", query), ("limit", toString limit), ("filters", dumps (Json.obj fs))]
  let req : HttpRequest :=
    { method := "GET"
      url := c.base_url ++ "/api/v1/mesh/memories/query"
      params := params
      headers := [("Authorization", "Bearer " ++ c.api_key)]
      body := none }
  let response := server req
  let result : Except ClientError Json :=
    if 400 ≤ response.status ∧ response.status < 600 then
      Except.error (ClientError.httpError response.status response.body)
    else
      match loads response.body with
      | none => Except.error ClientError.jsonDecodeError
      | some (Json.obj kvs) => Except.ok (dictGet kvs ("hits") (Json.arr []))
      | some _ => Except.error ClientError.attributeError
  { clientAfter := c, request := req, result := result }

/-- A JSON value is a sequence of strings if it is an array whose
elements are all strings. -/
def isStringArray : Json → Bool
  | Json.arr xs => xs.all (fun x => match x with | Json.str _ => true | _ => false)
  | _ => false

/-! ### Digit and character facts -/

/-- The declared separator/terminator shape after a number: either end of
input or a non-digit, so the greedy digit run stops there. -/
def sepHead : List Char → Bool
  | [] => true
  | c :: _ => !c.isDigit

theorem digitChar_isDigit {d : Nat} (h : d < 10) : (digitChar d).isDigit = true := by
  interval_cases d <;> decide

theorem digitChar_toNat {d : Nat} (h : d < 10) : (digitChar d).toNat - 48 = d := by
  interval_cases d <;> decide

/-- A digit character is none of the characters that open another kind of
JSON token, and none of the closers or separators. -/
theorem isDigit_ne {c : Char} (h : c.isDigit = true) :
    c ≠ 'n' ∧ c ≠ 't' ∧ c ≠ 'f' ∧ c ≠ '"' ∧ c ≠ '[' ∧ c ≠ '\x7b' ∧ c ≠ '-' ∧
      c ≠ ']' ∧ c ≠ '\x7d' ∧ c ≠ ',' := by
  refine ⟨?_, ?_, ?_, ?_, ?_, ?_, ?_, ?_, ?_, ?_⟩ <;>
    (intro he; rw [he] at h; exact absurd h (by decide))

theorem natCharsAux_ne_nil : ∀ (f n : Nat), n < f → natCharsAux f n ≠ [] := by
  intro f
  induction f with
  | zero => intro n h; omega
  | succ f _ =>
    intro n _
    by_cases h10 : n < 10
    · simp [natCharsAux, if_pos h10]
    · simp [natCharsAux, if_neg h10]

theorem natCharsAux_digits : ∀ (f n : Nat), n < f →
    ∀ c ∈ natCharsAux f n, c.isDigit = true := by
  intro f
  induction f with
  | zero => intro n h; omega
  | succ f ih =>
    intro n hn c hc
    by_cases h10 : n < 10
    · rw [natCharsAux, if_pos h10] at hc
      simp at hc
      rw [hc]
      exact digitChar_isDigit h10
    · rw [natCharsAux, if_neg h10] at hc
      simp at hc
      rcases hc with hc | hc
      · exact ih (n / 10) (by omega) c hc
      · rw [hc]; exact digitChar_isDigit (by omega)

/-- The digit string of a natural number is nonempty and starts with a digit. -/
theorem natChars_head (n : Nat) : ∃ c t, natChars n = c :: t ∧ c.isDigit = true := by
  cases hcn : natChars n with
  | nil => exact absurd hcn (natCharsAux_ne_nil (n + 1) n (by omega))
  | cons c t =>
    refine ⟨c, t, rfl, ?_⟩
    exact natCharsAux_digits (n + 1) n (by omega) c (by rw [show natCharsAux (n+1) n = natChars n from rfl, hcn]; simp)

/-! ### Number round-trip -/

theorem decDigits_stop (acc : Nat) (rest : List Char) (h : sepHead rest = true) :
    decDigits acc rest = (acc, rest) := by
  cases rest with
  | nil => rfl
  | cons c t =>
    rw [sepHead] at h
    simp at h
    rw [decDigits, if_neg (by simp [h])]

theorem decDigits_natCharsAux : ∀ (f n acc : Nat) (rest : List Char), n < f →
    decDigits acc (natCharsAux f n ++ rest)
      = decDigits (acc * 10 ^ (natCharsAux f n).length + n) rest := by
  intro f
  induction f with
  | zero => intro n acc rest h; omega
  | succ f ih =>
    intro n acc rest hn
    by_cases h10 : n < 10
    · rw [natCharsAux, if_pos h10, List.singleton_append, decDigits,
        if_pos (digitChar_isDigit h10), digitChar_toNat h10]
      norm_num
    · rw [natCharsAux, if_neg h10, List.append_assoc,
        ih (n / 10) acc ([digitChar (n % 10)] ++ rest) (by omega),
        List.singleton_append, decDigits, if_pos (digitChar_isDigit (by omega)),
        digitChar_toNat (by omega)]
      congr 1
      rw [List.length_append, List.length_singleton, pow_succ, Nat.add_mul,
        Nat.mul_assoc]
      generalize acc * ((10 : Nat) ^ (natCharsAux f (n / 10)).length * 10) = P
      omega

theorem decDigits_natChars (n acc : Nat) (rest : List Char) :
    decDigits acc (natChars n ++ rest) = decDigits (acc * 10 ^ (natChars n).length + n) rest :=
  decDigits_natCharsAux (n + 1) n acc rest (by omega)

theorem decNat_natChars (n : Nat) (rest : List Char) (h : sepHead rest = true) :
    decNat (natChars n ++ rest) = some (n, rest) := by
  obtain ⟨c, t, hct, hcd⟩ := natChars_head n
  have key : decDigits 0 (natChars n ++ rest) = (n, rest) := by
    rw [decDigits_natChars]
    norm_num
    exact decDigits_stop n rest h
  have key2 : decDigits 0 (natChars n ++ rest) = decDigits (c.toNat - 48) (t ++ rest) := by
    rw [hct, List.cons_append, decDigits, if_pos hcd]
    norm_num
  rw [hct, List.cons_append, decNat, if_pos hcd, ← key2, key]

/-! ### String round-trip -/

/-- Unfolding of `decStrBody` on a cons cell. -/
theorem decStrBody_cons (c : Char) (r : List Char) :
    decStrBody (c :: r) =
      (if c = '"' then some ([], r)
      else if c = '\\' then
        match r with
        | c2 :: r2 =>
          match decStrBody r2 with
          | some (s, r3) => some (c2 :: s, r3)
          | none => none
        | [] => none
      else
        match decStrBody r with
        | some (s, r2) => some (c :: s, r2)
        | none => none) := by
  rw [decStrBody.eq_def]

theorem decStrBody_esc : ∀ (s rest : List Char),
    decStrBody (escChars s ++ '"' :: rest) = some (s, rest) := by
  intro s
  induction s with
  | nil =>
    intro rest
    rw [escChars, List.nil_append, decStrBody_cons, if_pos rfl]
  | cons c s ih =>
    intro rest
    by_cases hc : c = '"' ∨ c = '\\'
    · rw [escChars, escChar, if_pos hc, List.cons_append, List.cons_append,
        decStrBody_cons, if_neg (by decide), if_pos rfl, List.singleton_append]
      simp [ih rest]
    · push_neg at hc
      rw [escChars, escChar, if_neg (by push_neg; exact hc), List.singleton_append,
        List.cons_append, decStrBody_cons, if_neg hc.1, if_neg hc.2]
      simp [ih rest]

theorem String.mk_data (s : String) : String.mk s.data = s := by
  cases s
  rfl

/-! ### Shape of emitted output -/

/-- What `emitVal` emits always starts with a character that is neither a
closing bracket, a closing brace, nor a comma. -/
theorem emitVal_consHead (j : Json) :
    ∃ c t, emitVal j = c :: t ∧ c ≠ ']' ∧ c ≠ '\x7d' ∧ c ≠ ',' := by
  cases j with
  | null => exact ⟨'n', _, rfl, by decide, by decide, by decide⟩
  | bool b => cases b
              · exact ⟨'f', _, rfl, by decide, by decide, by decide⟩
              · exact ⟨'t', _, rfl, by decide, by decide, by decide⟩
  | num i =>
    by_cases hi : i < 0
    · refine ⟨'-', natChars i.natAbs, ?_, by decide, by decide, by decide⟩
      rw [emitVal, intChars, if_pos hi]
    · obtain ⟨c, t, hct, hcd⟩ := natChars_head i.natAbs
      obtain ⟨_, _, _, _, _, _, _, h8, h9, h10⟩ := isDigit_ne hcd
      refine ⟨c, t, ?_, h8, h9, h10⟩
      rw [emitVal, intChars, if_neg hi, hct]
  | str s => exact ⟨'"', _, rfl, by decide, by decide, by decide⟩
  | arr xs =>
    cases xs with
    | nil => exact ⟨'[', _, rfl, by decide, by decide, by decide⟩
    | cons x xs => exact ⟨'[', _, rfl, by decide, by decide, by decide⟩
  | obj kvs =>
    cases kvs with
    | nil => exact ⟨'\x7b', _, rfl, by decide, by decide, by decide⟩
    | cons kv kvs => exact ⟨'\x7b', _, rfl, by decide, by decide, by decide⟩

/-- After the emitted elements of an array tail comes either the closing
character `d` itself or a comma, never a digit. -/
theorem sepHead_emitElems (xs : List Json) (d : Char) (rest : List Char)
    (hd : d.isDigit = false) : sepHead (emitElems xs ++ d :: rest) = true := by
  cases xs with
  | nil => rw [emitElems, List.nil_append, sepHead]; simp [hd]
  | cons x xs => rw [emitElems]; rfl

/-- The object-member analogue of `sepHead_emitElems`. -/
theorem sepHead_emitMembers (kvs : List (String × Json)) (d : Char) (rest : List Char)
    (hd : d.isDigit = false) : sepHead (emitMembers kvs ++ d :: rest) = true := by
  cases kvs with
  | nil => rw [emitMembers, List.nil_append, sepHead]; simp [hd]
  | cons kv kvs => rw [emitMembers]; rfl

/-! ### Parser unfolding lemmas -/

/-- Unfolding of `decVal` at positive fuel on a cons cell. -/
theorem decVal_succ_cons (f : Nat) (c : Char) (r : List Char) :
    decVal (f+1) (c :: r) =
      (if c = 'n' then
        match expectLit (['u','l','l']) r with
        | some r2 => some (Json.null, r2)
        | none => none
      else if c = 't' then
        match expectLit (['r','u','e']) r with
        | some r2 => some (Json.bool true, r2)
        | none => none
      else if c = 'f' then
        match expectLit (['a','l','s','e']) r with
        | some r2 => some (Json.bool false, r2)
        | none => none
      else if c = '"' then
        match decStrBody r with
        | some (s, r2) => some (Json.str (String.mk s), r2)
        | none => none
      else if c = '[' then
        if r.head? = some ']' then some (Json.arr [], r.tail)
        else
          match decVal f r with
          | some (v, r2) =>
            match decElems f r2 with
            | some (vs, r3) => some (Json.arr (v :: vs), r3)
            | none => none
          | none => none
      else if c = '\x7b' then
        if r.head? = some '\x7d' then some (Json.obj [], r.tail)
        else
          match decMember f r with
          | some (kv, r2) =>
            match decMembers f r2 with
            | some (kvs, r3) => some (Json.obj (kv :: kvs), r3)
            | none => none
          | none => none
      else if c = '-' then
        match decNat r with
        | some (n, r2) => some (Json.num (-(n : Int)), r2)
        | none => none
      else if c.isDigit then
        match decNat (c :: r) with
        | some (n, r2) => some (Json.num ((n : Int)), r2)
        | none => none
      else none) := by
  rw [decVal.eq_def]

/-- Unfolding of `decElems` at positive fuel on a cons cell. -/
theorem decElems_succ_cons (f : Nat) (c : Char) (r : List Char) :
    decElems (f+1) (c :: r) =
      (if c = ']' then some ([], r)
      else if c = ',' then
        if r.head? = some ' ' then
          match decVal f r.tail with
          | some (v, r3) =>
            match decElems f r3 with
            | some (vs, r4) => some (v :: vs, r4)
            | none => none
          | none => none
        else none
      else none) := by
  rw [decElems.eq_def]

/-- Unfolding of `decMember` at positive fuel on a cons cell. -/
theorem decMember_succ_cons (f : Nat) (c : Char) (r : List Char) :
    decMember (f+1) (c :: r) =
      (if c = '"' then
        match decStrBody r with
        | some (k, r2) =>
          if r2.head? = some ':' then
            if r2.tail.head? = some ' ' then
              match decVal f r2.tail.tail with
              | some (v, r4) => some ((String.mk k, v), r4)
              | none => none
            else none
          else none
        | none => none
      else none) := by
  rw [decMember.eq_def]

/-- Unfolding of `decMembers` at positive fuel on a cons cell. -/
theorem decMembers_succ_cons (f : Nat) (c : Char) (r : List Char) :
    decMembers (f+1) (c :: r) =
      (if c = '\x7d' then some ([], r)
      else if c = ',' then
        if r.head? = some ' ' then
          match decMember f r.tail with
          | some (kv, r3) =>
            match decMembers f r3 with
            | some (kvs, r4) => some (kv :: kvs, r4)
            | none => none
          | none => none
        else none
      else none) := by
  rw [decMembers.eq_def]

/-! ### Decode inverts emit -/

mutual
/-- Parsing the canonical rendering of a value (with enough fuel, and
followed by a non-digit) recovers the value exactly. -/
theorem decVal_emit : ∀ (j : Json) (f : Nat) (rest : List Char),
    (emitVal j).length < f → sepHead rest = true →
    decVal f (emitVal j ++ rest) = some (j, rest)
  | Json.null, f, rest, hf, _ => by
    cases f with
    | zero => exact absurd hf (Nat.not_lt_zero _)
    | succ f => simp [emitVal, decVal_succ_cons, expectLit]
  | Json.bool b, f, rest, hf, _ => by
    cases f with
    | zero => exact absurd hf (Nat.not_lt_zero _)
    | succ f => cases b <;> simp [emitVal, decVal_succ_cons, expectLit]
  | Json.num i, f, rest, hf, hr => by
    cases f with
    | zero => exact absurd hf (Nat.not_lt_zero _)
    | succ f =>
      by_cases hi : i < 0
      · rw [show emitVal (Json.num i) = intChars i from rfl, intChars, if_pos hi,
          List.cons_append, decVal_succ_cons,
          if_neg (by decide), if_neg (by decide), if_neg (by decide), if_neg (by decide),
          if_neg (by decide), if_neg (by decide), if_pos rfl,
          decNat_natChars i.natAbs rest hr]
        have habs : ((i.natAbs : Int)) = -i := by omega
        simp [habs]
      · rw [show emitVal (Json.num i) = intChars i from rfl, intChars, if_neg hi]
        obtain ⟨c, t, hct, hcd⟩ := natChars_head i.natAbs
        obtain ⟨h1, h2, h3, h4, h5, h6, h7, _, _, _⟩ := isDigit_ne hcd
        rw [hct, List.cons_append, decVal_succ_cons, if_neg h1, if_neg h2, if_neg h3,
          if_neg h4, if_neg h5, if_neg h6, if_neg h7, if_pos hcd,
          ← List.cons_append, ← hct, decNat_natChars i.natAbs rest hr]
        have habs : ((i.natAbs : Int)) = i := by omega
        simp [habs]
  | Json.str s, f, rest, hf, _ => by
    cases f with
    | zero => exact absurd hf (Nat.not_lt_zero _)
    | succ f =>
      rw [show emitVal (Json.str s) = '"' :: (escChars s.data ++ ['"']) from rfl,
        List.cons_append, decVal_succ_cons,
        if_neg (by decide), if_neg (by decide), if_neg (by decide), if_pos rfl,
        List.append_assoc, List.singleton_append, decStrBody_esc s.data rest]
  | Json.arr [], f, rest, hf, _ => by
    cases f with
    | zero => exact absurd hf (Nat.not_lt_zero _)
    | succ f => simp [emitVal, decVal_succ_cons]
  | Json.arr (x :: xs), f, rest, hf, _ => by
    cases f with
    | zero => exact absurd hf (Nat.not_lt_zero _)
    | succ f =>
      have he : emitVal (Json.arr (x :: xs)) = '[' :: (emitVal x ++ emitElems xs ++ [']']) := rfl
      rw [he] at hf ⊢
      simp only [List.length_cons, List.length_append, List.length_singleton] at hf
      obtain ⟨c, t, hct, hc1, _, _⟩ := emitVal_consHead x
      have hhead : ((emitVal x ++ emitElems xs ++ [']']) ++ rest).head? = some c := by
        rw [hct]; simp
      rw [List.cons_append, decVal_succ_cons,
        if_neg (by decide), if_neg (by decide), if_neg (by decide), if_neg (by decide),
        if_pos rfl, if_neg (by rw [hhead]; simp [hc1])]
      have harr : (emitVal x ++ emitElems xs ++ [']']) ++ rest
          = emitVal x ++ (emitElems xs ++ ']' :: rest) := by simp
      rw [harr, decVal_emit x f (emitElems xs ++ ']' :: rest) (by omega)
          (sepHead_emitElems xs ']' rest (by decide))]
      simp [decElems_emit xs f rest (by omega)]
  | Json.obj [], f, rest, hf, _ => by
    cases f with
    | zero => exact absurd hf (Nat.not_lt_zero _)
    | succ f => simp [emitVal, decVal_succ_cons]
  | Json.obj (kv :: kvs), f, rest, hf, _ => by
    cases f with
    | zero => exact absurd hf (Nat.not_lt_zero _)
    | succ f =>
      have he : emitVal (Json.obj (kv :: kvs))
          = '\x7b' :: (emitMember kv ++ emitMembers kvs ++ ['\x7d']) := rfl
      rw [he] at hf ⊢
      simp only [List.length_cons, List.length_append, List.length_singleton] at hf
      have hmemb : ∃ t, emitMember kv = '"' :: t := by
        obtain ⟨k, v⟩ := kv
        exact ⟨_, rfl⟩
      obtain ⟨t, hct⟩ := hmemb
      have hhead : ((emitMember kv ++ emitMembers kvs ++ ['\x7d']) ++ rest).head? = some '"' := by
        rw [hct]; simp
      rw [List.cons_append, decVal_succ_cons,
        if_neg (by decide), if_neg (by decide), if_neg (by decide), if_neg (by decide),
        if_neg (by decide), if_pos rfl, if_neg (by rw [hhead]; simp)]
      have hobj : (emitMember kv ++ emitMembers kvs ++ ['\x7d']) ++ rest
          = emitMember kv ++ (emitMembers kvs ++ '\x7d' :: rest) := by simp
      rw [hobj, decMember_emit kv f (emitMembers kvs ++ '\x7d' :: rest) (by omega)
          (sepHead_emitMembers kvs '\x7d' rest (by decide))]
      simp [decMembers_emit kvs f rest (by omega)]
termination_by j _ _ _ _ => sizeOf j
/-- Parsing the canonical rendering of an array tail recovers the
remaining elements. -/
theorem decElems_emit : ∀ (xs : List Json) (f : Nat) (rest : List Char),
    (emitElems xs).length < f →
    decElems f (emitElems xs ++ ']' :: rest) = some (xs, rest)
  | [], f, rest, hf => by
    cases f with
    | zero => exact absurd hf (Nat.not_lt_zero _)
    | succ f => simp [emitElems, decElems_succ_cons]
  | x :: xs, f, rest, hf => by
    cases f with
    | zero => exact absurd hf (Nat.not_lt_zero _)
    | succ f =>
      have he : emitElems (x :: xs) = ',' :: ' ' :: (emitVal x ++ emitElems xs) := rfl
      rw [he] at hf ⊢
      simp only [List.length_cons, List.length_append] at hf
      rw [List.cons_append, List.cons_append, decElems_succ_cons,
        if_neg (by decide), if_pos rfl, if_pos (by simp), List.tail_cons]
      have hsplit : (emitVal x ++ emitElems xs) ++ ']' :: rest
          = emitVal x ++ (emitElems xs ++ ']' :: rest) := by simp
      rw [hsplit, decVal_emit x f (emitElems xs ++ ']' :: rest) (by omega)
          (sepHead_emitElems xs ']' rest (by decide))]
      simp [decElems_emit xs f rest (by omega)]
termination_by xs _ _ _ => sizeOf xs
/-- Parsing the canonical rendering of one object member recovers it. -/
theorem decMember_emit : ∀ (kv : String × Json) (f : Nat) (rest : List Char),
    (emitMember kv).length < f → sepHead rest = true →
    decMember f (emitMember kv ++ rest) = some (kv, rest)
  | (k, v), f, rest, hf, hr => by
    cases f with
    | zero => exact absurd hf (Nat.not_lt_zero _)
    | succ f =>
      have he : emitMember (k, v) = '"' :: (escChars k.data ++ '"' :: ':' :: ' ' :: emitVal v) := rfl
      rw [he] at hf ⊢
      simp only [List.length_cons, List.length_append] at hf
      rw [List.cons_append, decMember_succ_cons, if_pos rfl]
      have hsplit : (escChars k.data ++ '"' :: ':' :: ' ' :: emitVal v) ++ rest
          = escChars k.data ++ '"' :: (':' :: ' ' :: (emitVal v ++ rest)) := by simp
      rw [hsplit, decStrBody_esc k.data (':' :: ' ' :: (emitVal v ++ rest))]
      simp [decVal_emit v f rest (by omega) hr, String.mk_data]
termination_by kv _ _ _ _ => sizeOf kv
/-- Parsing the canonical rendering of an object tail recovers the
remaining members. -/
theorem decMembers_emit : ∀ (kvs : List (String × Json)) (f : Nat) (rest : List Char),
    (emitMembers kvs).length < f →
    decMembers f (emitMembers kvs ++ '\x7d' :: rest) = some (kvs, rest)
  | [], f, rest, hf => by
    cases f with
    | zero => exact absurd hf (Nat.not_lt_zero _)
    | succ f => simp [emitMembers, decMembers_succ_cons]
  | kv :: kvs, f, rest, hf => by
    cases f with
    | zero => exact absurd hf (Nat.not_lt_zero _)
    | succ f =>
      have he : emitMembers (kv :: kvs) = ',' :: ' ' :: (emitMember kv ++ emitMembers kvs) := rfl
      rw [he] at hf ⊢
      simp only [List.length_cons, List.length_append] at hf
      rw [List.cons_append, List.cons_append, decMembers_succ_cons,
        if_neg (by decide), if_pos rfl, if_pos (by simp), List.tail_cons]
      have hsplit : (emitMember kv ++ emitMembers kvs) ++ '\x7d' :: rest
          = emitMember kv ++ (emitMembers kvs ++ '\x7d' :: rest) := by simp
      rw [hsplit, decMember_emit kv f (emitMembers kvs ++ '\x7d' :: rest) (by omega)
          (sepHead_emitMembers kvs '\x7d' rest (by decide))]
      simp [decMembers_emit kvs f rest (by omega)]
termination_by kvs _ _ _ => sizeOf kvs
end

/-- Decoding a dumped value recovers it exactly: the JSON encoding is
lossless. -/
theorem loads_dumps (j : Json) : loads (dumps j) = some j := by
  have h : decVal ((dumps j).length + 1) (dumps j).data = some (j, []) := by
    have h0 := decVal_emit j ((emitVal j).length + 1) [] (by omega) rfl
    rw [List.append_nil] at h0
    exact h0
  rw [loads, h]
  simp

/-! ### Claims -/

/-- C1: for every HTTP response whose status code indicates a client or
server error (4xx/5xx), both `add_memories` and `query_memories` raise an
`HttpError` carrying the status code and response body, and return no
result value. -/
theorem add_query_raise_on_error_status (c : MemoryMeshClient) (memories : List Json)
    (q : String) (limit : Int) (filters : Option (List (String × Json)))
    (resp : HttpResponse) (h4 : 400 ≤ resp.status) (h6 : resp.status < 600) :
    (c.add_memories memories (fun _ => resp)).result
        = Except.error (ClientError.httpError resp.status resp.body) ∧
    (c.query_memories q limit filters (fun _ => resp)).result
        = Except.error (ClientError.httpError resp.status resp.body) := by
  constructor <;>
    simp [MemoryMeshClient.add_memories, MemoryMeshClient.query_memories, h4, h6]

/-- Witness for C1 at status 404. -/
theorem add_query_raise_on_error_status_witness :
    ((MemoryMeshClient.init ("k") none).add_memories [] (fun _ => ⟨404, "not found"⟩)).result
        = Except.error (ClientError.httpError 404 "not found") ∧
    ((MemoryMeshClient.init ("k") none).query_memories ("foo") 10 none
        (fun _ => ⟨404, "not found"⟩)).result
        = Except.error (ClientError.httpError 404 "not found") :=
  add_query_raise_on_error_status (MemoryMeshClient.init ("k") none) [] ("foo") 10 none
    ⟨404, "not found"⟩ (by decide) (by decide)

/-- C2 counterexample: on the successful response `{"stored_ids": [1]}`,
`add_memories` returns the field value `[1]` unchanged, which is not a
sequence of strings — no coercion to strings takes place. -/
theorem add_memories_no_string_coercion :
    ((MemoryMeshClient.init ("k") none).add_memories []
        (fun _ => ⟨200, "\x7b\"stored_ids\": [1]\x7d"⟩)).result
        = Except.ok (Json.arr [Json.num 1]) ∧
    isStringArray (Json.arr [Json.num 1]) = false :=
  ⟨rfl, rfl⟩

/-- C2 (amended): for every successful response whose body parses as a
JSON object, `add_memories` returns the value of the `stored_ids` field
verbatim (no coercion is applied) when the field is present, and an empty
sequence when it is absent. -/
theorem add_memories_stored_ids_passthrough (c : MemoryMeshClient) (memories : List Json)
    (resp : HttpResponse) (hok : ¬(400 ≤ resp.status ∧ resp.status < 600))
    (kvs : List (String × Json)) (hbody : loads resp.body = some (Json.obj kvs)) :
    (∀ v, lookupLast kvs ("stored_ids") = some v →
        (c.add_memories memories (fun _ => resp)).result = Except.ok v) ∧
    (lookupLast kvs ("stored_ids") = none →
        (c.add_memories memories (fun _ => resp)).result = Except.ok (Json.arr [])) := by
  constructor
  · intro v hv
    simp [MemoryMeshClient.add_memories, hok, hbody, dictGet, hv]
  · intro hv
    simp [MemoryMeshClient.add_memories, hok, hbody, dictGet, hv]

/-- Witness for amended C2: the spec example `{"stored_ids": ["m1", "m2"]}`
comes back exactly, and an absent field yields `[]`. -/
theorem add_memories_stored_ids_passthrough_witness :
    ((MemoryMeshClient.init ("k") none).add_memories []
        (fun _ => ⟨200, "\x7b\"stored_ids\": [\"m1\", \"m2\"]\x7d"⟩)).result
        = Except.ok (Json.arr [Json.str "m1", Json.str "m2"]) ∧
    ((MemoryMeshClient.init ("k") none).add_memories []
        (fun _ => ⟨200, "\x7b\"other\": 1\x7d"⟩)).result
        = Except.ok (Json.arr []) :=
  ⟨(add_memories_stored_ids_passthrough (MemoryMeshClient.init ("k") none) []
      ⟨200, "\x7b\"stored_ids\": [\"m1\", \"m2\"]\x7d"⟩ (by decide)
      [("stored_ids", Json.arr [Json.str "m1", Json.str "m2"])] rfl).1
      (Json.arr [Json.str "m1", Json.str "m2"]) rfl,
   (add_memories_stored_ids_passthrough (MemoryMeshClient.init ("k") none) []
      ⟨200, "\x7b\"other\": 1\x7d"⟩ (by decide)
      [("other", Json.num 1)] rfl).2 rfl⟩

/-- C3: for every successful response whose body parses as a JSON object,
`query_memories` returns exactly the value of the `hits` field when
present (so the server order is preserved), and an empty sequence rather
than failing when the field is absent. -/
theorem query_memories_hits_passthrough (c : MemoryMeshClient) (q : String) (limit : Int)
    (filters : Option (List (String × Json)))
    (resp : HttpResponse) (hok : ¬(400 ≤ resp.status ∧ resp.status < 600))
    (kvs : List (String × Json)) (hbody : loads resp.body = some (Json.obj kvs)) :
    (∀ v, lookupLast kvs ("hits") = some v →
        (c.query_memories q limit filters (fun _ => resp)).result = Except.ok v) ∧
    (lookupLast kvs ("hits") = none →
        (c.query_memories q limit filters (fun _ => resp)).result = Except.ok (Json.arr [])) := by
  constructor
  · intro v hv
    simp [MemoryMeshClient.query_memories, hok, hbody, dictGet, hv]
  · intro hv
    simp [MemoryMeshClient.query_memories, hok, hbody, dictGet, hv]

/-- Witness for C3: the spec example `{"hits": [{"id": "a"}, {"id": "b"}]}`
comes back in that order, and an absent field yields `[]`. -/
theorem query_memories_hits_passthrough_witness :
    ((MemoryMeshClient.init ("k") none).query_memories ("foo") 10 none
        (fun _ => ⟨200, "\x7b\"hits\": [\x7b\"id\": \"a\"\x7d, \x7b\"id\": \"b\"\x7d]\x7d"⟩)).result
        = Except.ok (Json.arr [Json.obj [("id", Json.str "a")], Json.obj [("id", Json.str "b")]]) ∧
    ((MemoryMeshClient.init ("k") none).query_memories ("foo") 10 none
        (fun _ => ⟨200, "\x7b\"other\": 1\x7d"⟩)).result
        = Except.ok (Json.arr []) :=
  ⟨(query_memories_hits_passthrough (MemoryMeshClient.init ("k") none) ("foo") 10 none
      ⟨200, "\x7b\"hits\": [\x7b\"id\": \"a\"\x7d, \x7b\"id\": \"b\"\x7d]\x7d"⟩ (by decide)
      [("hits", Json.arr [Json.obj [("id", Json.str "a")], Json.obj [("id", Json.str "b")]])]
      rfl).1
      (Json.arr [Json.obj [("id", Json.str "a")], Json.obj [("id", Json.str "b")]]) rfl,
   (query_memories_hits_passthrough (MemoryMeshClient.init ("k") none) ("foo") 10 none
      ⟨200, "\x7b\"other\": 1\x7d"⟩ (by decide)
      [("other", Json.num 1)] rfl).2 rfl⟩

/-- C4: for every sequence of memory records (including the empty one),
the request body `add_memories` sends is a JSON object with the single
key `memories` whose value is the input sequence unchanged, and that
body survives a JSON encode/decode round trip identically. -/
theorem add_memories_request_body_roundtrip (c : MemoryMeshClient) (memories : List Json)
    (server : HttpRequest → HttpResponse) :
    (c.add_memories memories server).request.body
        = some (Json.obj [("memories", Json.arr memories)]) ∧
    loads (dumps (Json.obj [("memories", Json.arr memories)]))
        = some (Json.obj [("memories", Json.arr memories)]) :=
  ⟨rfl, loads_dumps (Json.obj [("memories", Json.arr memories)])⟩

/-- C5: every `query_memories` request carries the parameters `q` and
`limit`; the `filters` parameter is present exactly when the filters
mapping is non-null and non-empty, and then holds the JSON encoding of
the mapping, whose decoding gives back the original mapping. -/
theorem query_memories_params_filters (c : MemoryMeshClient) (q : String) (limit : Int)
    (filters : Option (List (String × Json))) (server : HttpRequest → HttpResponse) :
    (filters = none →
      (c.query_memories q limit filters server).request.params
        = [("q", q), ("limit", toString limit)]) ∧
    (filters = some [] →
      (c.query_memories q limit filters server).request.params
        = [("q", q), ("limit", toString limit)]) ∧
    (∀ fs, filters = some fs → fs ≠ [] →
      (c.query_memories q limit filters server).request.params
        = [("q", q), ("limit", toString limit), ("filters", dumps (Json.obj fs))] ∧
      loads (dumps (Json.obj fs)) = some (Json.obj fs)) := by
  refine ⟨?_, ?_, ?_⟩
  · intro h; subst h; rfl
  · intro h; subst h; rfl
  · intro fs h hne
    subst h
    refine ⟨?_, loads_dumps (Json.obj fs)⟩
    cases fs with
    | nil => exact absurd rfl hne
    | cons kv kvs => rfl

/-- Witness for C5: with no filters there is no `filters` parameter; with
the spec example filters `{"type": "note"}` the parameter appears, holds
the JSON text, and decodes back to the mapping. -/
theorem query_memories_params_filters_witness :
    ((MemoryMeshClient.init ("k") none).query_memories ("foo") 10 none
        (fun _ => ⟨200, "\x7b\x7d"⟩)).request.params
        = [("q", "foo"), ("limit", "10")] ∧
    ((MemoryMeshClient.init ("k") none).query_memories ("foo") 10
        (some [("type", Json.str "note")]) (fun _ => ⟨200, "\x7b\x7d"⟩)).request.params
        = [("q", "foo"), ("limit", "10"), ("filters", "\x7b\"type\": \"note\"\x7d")] ∧
    loads ("\x7b\"type\": \"note\"\x7d") = some (Json.obj [("type", Json.str "note")]) := by
  have hnone := (query_memories_params_filters (MemoryMeshClient.init ("k") none) ("foo") 10
      none (fun _ => ⟨200, "\x7b\x7d"⟩)).1 rfl
  have hsome := (query_memories_params_filters (MemoryMeshClient.init ("k") none) ("foo") 10
      (some [("type", Json.str "note")]) (fun _ => ⟨200, "\x7b\x7d"⟩)).2.2
      [("type", Json.str "note")] rfl (by simp)
  exact ⟨hnone, by rw [hsome.1]; rfl, hsome.2⟩

/-- C6 counterexample: constructed with the empty string as base URL, the
client does not store the supplied value verbatim — it substitutes the
fixed default even though the base URL was not omitted. -/
theorem init_empty_base_url_counterexample :
    (MemoryMeshClient.init ("k") (some "")).base_url = defaultBaseUrl ∧
    (MemoryMeshClient.init ("k") (some "")).base_url ≠ "" :=
  ⟨rfl, by decide⟩

/-- C6 (amended): construction stores the API key verbatim with no
validation; the base URL is stored verbatim when it is a non-empty
string, and the fixed default service address is substituted when the
base URL is omitted or empty. -/
theorem init_stores_key_and_defaults_base (key : String) (url : Option String) :
    (MemoryMeshClient.init key url).api_key = key ∧
    (url = none → (MemoryMeshClient.init key url).base_url = defaultBaseUrl) ∧
    (url = some "" → (MemoryMeshClient.init key url).base_url = defaultBaseUrl) ∧
    (∀ s, url = some s → s ≠ "" → (MemoryMeshClient.init key url).base_url = s) := by
  refine ⟨rfl, ?_, ?_, ?_⟩
  · intro h; subst h; rfl
  · intro h; subst h; rfl
  · intro s h hs
    subst h
    simp [MemoryMeshClient.init, hs]

/-- Witness for amended C6 on a concrete non-empty URL and on omission. -/
theorem init_stores_key_and_defaults_base_witness :
    (MemoryMeshClient.init ("k") (some "https://svc.example")).api_key = "k" ∧
    (MemoryMeshClient.init ("k") (some "https://svc.example")).base_url
        = "https://svc.example" ∧
    (MemoryMeshClient.init ("k") none).base_url = defaultBaseUrl :=
  ⟨(init_stores_key_and_defaults_base ("k") (some "https://svc.example")).1,
   (init_stores_key_and_defaults_base ("k") (some "https://svc.example")).2.2.2
      ("https://svc.example") rfl (by decide),
   (init_stores_key_and_defaults_base ("k") none).2.1 rfl⟩

/-- C7: every request carries `Authorization: Bearer <api_key>` built from
the key supplied at construction, and the `add_memories` POST additionally
carries `Content-Type: application/json`. -/
theorem requests_carry_auth_headers (c : MemoryMeshClient) (memories : List Json)
    (q : String) (limit : Int) (filters : Option (List (String × Json)))
    (server : HttpRequest → HttpResponse) :
    ("Authorization", "Bearer " ++ c.api_key) ∈ (c.add_memories memories server).request.headers ∧
    ("Content-Type", "application/json") ∈ (c.add_memories memories server).request.headers ∧
    ("Authorization", "Bearer " ++ c.api_key)
        ∈ (c.query_memories q limit filters server).request.headers := by
  refine ⟨?_, ?_, ?_⟩ <;>
    simp [MemoryMeshClient.add_memories, MemoryMeshClient.query_memories]

/-- C8: the client is stateless between calls — the `api_key` and
`base_url` fields set at construction are unchanged by every call to
`add_memories` and `query_memories`, whether the call succeeds or fails. -/
theorem client_state_unchanged (c : MemoryMeshClient) (memories : List Json)
    (q : String) (limit : Int) (filters : Option (List (String × Json)))
    (server : HttpRequest → HttpResponse) :
    (c.add_memories memories server).clientAfter = c ∧
    (c.query_memories q limit filters server).clientAfter = c :=
  ⟨rfl, rfl⟩

/-- C9: construction given the empty string (the only falsy string) as
base URL uses the fixed default `https://api.example.com`, just as when
the base URL is omitted: defaulting is triggered by falsiness. -/
theorem init_defaults_on_falsy_base_url (key : String) :
    (MemoryMeshClient.init key (some "")).base_url = "https://api.example.com" ∧
    (MemoryMeshClient.init key none).base_url = "https://api.example.com" :=
  ⟨rfl, rfl⟩

/-- C10: when `stored_ids` (for `add_memories`) or `hits` (for
`query_memories`) is present with a null value, the method returns that
null value rather than the empty-sequence default, which applies only
when the field is absent.  Each method's conclusion depends only on its
own field. -/
theorem null_field_returned_not_defaulted (c : MemoryMeshClient) (memories : List Json)
    (q : String) (limit : Int) (filters : Option (List (String × Json)))
    (resp : HttpResponse) (hok : ¬(400 ≤ resp.status ∧ resp.status < 600))
    (kvs : List (String × Json)) (hbody : loads resp.body = some (Json.obj kvs)) :
    (lookupLast kvs ("stored_ids") = some Json.null →
      (c.add_memories memories (fun _ => resp)).result = Except.ok Json.null) ∧
    (lookupLast kvs ("hits") = some Json.null →
      (c.query_memories q limit filters (fun _ => resp)).result = Except.ok Json.null) ∧
    Json.null ≠ Json.arr [] := by
  refine ⟨?_, ?_, fun h => Json.noConfusion h⟩
  · intro hsid
    simp [MemoryMeshClient.add_memories, hok, hbody, dictGet, hsid]
  · intro hhits
    simp [MemoryMeshClient.query_memories, hok, hbody, dictGet, hhits]

/-- Witness for C10 on the paradigm single-field bodies: `add_memories`
on `{"stored_ids": null}` with no `hits` key, and `query_memories` on
`{"hits": null}` with no `stored_ids` key. -/
theorem null_field_returned_not_defaulted_witness :
    ((MemoryMeshClient.init ("k") none).add_memories []
        (fun _ => ⟨200, "\x7b\"stored_ids\": null\x7d"⟩)).result
        = Except.ok Json.null ∧
    ((MemoryMeshClient.init ("k") none).query_memories ("foo") 10 none
        (fun _ => ⟨200, "\x7b\"hits\": null\x7d"⟩)).result
        = Except.ok Json.null :=
  ⟨(null_field_returned_not_defaulted (MemoryMeshClient.init ("k") none) [] ("foo") 10 none
      ⟨200, "\x7b\"stored_ids\": null\x7d"⟩ (by decide)
      [("stored_ids", Json.null)] rfl).1 rfl,
   (null_field_returned_not_defaulted (MemoryMeshClient.init ("k") none) [] ("foo") 10 none
      ⟨200, "\x7b\"hits\": null\x7d"⟩ (by decide)
      [("hits", Json.null)] rfl).2.1 rfl⟩
